import Mathlib

/-!
Shallow embedding of the `lt::retry` composable retry-policy library
(`retry-policy.h`, `policies.h`, `preemptible.h`).

Modelling conventions:
* `std::chrono::microseconds` counts and C++ `int` values are modelled as
  unbounded mathematical integers (`Int`); `iteration_number` is modelled as
  `Nat` (the data model requires it to be a non-negative integer and every
  reachable status keeps it so).
* A policy `std::function<std::optional<microseconds>(RetryStatus)>` is a
  Lean function `RetryStatus → Option Int`; `none` is the STOP signal.
* The thread-local random generator consumed by jitter policies is modelled
  as an oracle `rand : Int → Int → Int` mapping the bounds handed to
  `uniform_int_distribution` to the drawn value.
* `std::this_thread::sleep_for` only blocks the thread; its effect is kept
  as an explicit trace component (`applyAndDelayTr`) so that the returned
  value is separated from the side effect.
* The wall clock read by `limitTimePoint` is a parameter `now`, and the
  condition predicate / condition-variable wait outcome of
  `PreemptibleRetry::applyAndPreemptibleDelay` are boolean oracle inputs.
* To reason about how many times a wrapping combinator evaluates its wrapped
  policy, instrumented variants (suffix `I`) thread a call counter: the
  wrapped policy is `Nat → RetryStatus → Option Int`, receiving the index of
  the call, and each combinator returns the updated call count.
-/

namespace Retry

/-- Source `RetryStatus` from `retry-policy.h`: iteration count, total delay applied
so far, and the most recently applied delay (absent before the first retry). -/
structure RetryStatus where
  iteration_number : Nat
  cumulative_delay : Int
  previous_delay : Option Int
deriving DecidableEq, Repr

/-- The zero-initialised status `RetryStatus{}` used to start every loop. -/
def RetryStatus.fresh : RetryStatus :=
  { iteration_number := 0, cumulative_delay := 0, previous_delay := none }

/-- A retry policy: the stored `_policy` function of class `RetryPolicy`. -/
abbrev Policy := RetryStatus → Option Int

/-- Source `RetryPolicy::apply`: evaluate the policy; on STOP propagate STOP, else
bump `iteration_number`, add the delay to `cumulative_delay` and record it as
`previous_delay`. -/
def apply (p : Policy) (status : RetryStatus) : Option RetryStatus :=
  match p status with
  | none => none
  | some delay =>
      some { iteration_number := status.iteration_number + 1,
             cumulative_delay := status.cumulative_delay + delay,
             previous_delay := some delay }

/-- Source `RetryPolicy::applyAndDelay` with the real sleep kept as a trace: the
first component is the returned value, the second lists the durations passed
to `sleep_for`. -/
def applyAndDelayTr (p : Policy) (status0 : RetryStatus) : Option RetryStatus × List Int :=
  match apply p status0 with
  | none => (none, [])
  | some status =>
      match status.previous_delay with
      | some d => (some status, [d])
      | none => (some status, [])

/-- The value returned by `RetryPolicy::applyAndDelay`. -/
def applyAndDelay (p : Policy) (status0 : RetryStatus) : Option RetryStatus :=
  (applyAndDelayTr p status0).1

/-- Source `operator+(RetryPolicy x, RetryPolicy y)`: evaluate both at the same
status; if both continue take the larger delay, otherwise STOP. -/
def combine (x y : Policy) : Policy := fun status =>
  match x status, y status with
  | some xresult, some yresult => some (max xresult yresult)
  | _, _ => none

/-- Source `RetryPolicy::retry` as a fuelled loop (`none` = the `while (true)` loop
did not return within the given fuel). Each round runs the action, consults
`shouldRetry`, and on a continuing policy adopts the new status. -/
def retryFuel {T : Type} (pol : Policy) (shouldRetry : RetryStatus → T → Bool)
    (action : RetryStatus → T) : Nat → RetryStatus → Option T
  | 0, _ => none
  | fuel + 1, status =>
      let result := action status
      if shouldRetry status result then
        match applyAndDelay pol status with
        | none => some result
        | some new_status => retryFuel pol shouldRetry action fuel new_status
      else some result

/-- Source `RetryPolicy::retry` started from the zero-initialised status. -/
def retry {T : Type} (pol : Policy) (shouldRetry : RetryStatus → T → Bool)
    (action : RetryStatus → T) (fuel : Nat) : Option T :=
  retryFuel pol shouldRetry action fuel RetryStatus.fresh

/-- The loop body of `RetryPolicy::simulate`, started at an arbitrary status
with `n` iterations of fuel: repeatedly `apply`, collecting the produced
statuses, stopping early on STOP. -/
def simulateFrom (p : Policy) (status : RetryStatus) : Nat → List RetryStatus
  | 0 => []
  | n + 1 =>
      match apply p status with
      | none => []
      | some new_status => new_status :: simulateFrom p new_status n

/-- Source `RetryPolicy::simulate(n)`: replay up to `n` steps from a fresh status. -/
def simulate (p : Policy) (n : Nat) : List RetryStatus :=
  simulateFrom p RetryStatus.fresh n

/-- Source `neverRetry` from `policies.h`. -/
def neverRetry : Policy := fun _ => none

/-- Source `limitRetries(retryLimit)` from `policies.h`. -/
def limitRetries (retryLimit : Int) : Policy := fun status =>
  if (status.iteration_number : Int) ≥ retryLimit then none else some 0

/-- Source `limitCumulativeDelay(limit, policy)` from `policies.h`. -/
def limitCumulativeDelay (cumulativeDelayLimit : Int) (policy : Policy) : Policy :=
  fun status =>
    match policy status with
    | some delay =>
        if delay + status.cumulative_delay ≥ cumulativeDelayLimit then none
        else some delay
    | none => none

/-- Source `limitTimePoint(time_point_limit, policy)` from `policies.h`, with the
wall-clock read `system_clock::now()` as the parameter `now`. The body
mirrors the source faithfully: after the early-return check it evaluates
`policy(status)` a second time rather than returning the stored `delay`. -/
def limitTimePoint (time_point_limit now : Int) (policy : Policy) : Policy :=
  fun status =>
    match policy status with
    | some delay =>
        if delay + now > time_point_limit then none else policy status
    | none => policy status

/-- Source `limitRetriesByDelay(delayLimit, policy)` from `policies.h`. -/
def limitRetriesByDelay (delayLimit : Int) (policy : Policy) : Policy :=
  fun status =>
    match policy status with
    | some delay => if delay ≥ delayLimit then none else some delay
    | none => none

/-- Source `constantDelay(delay)` from `policies.h`. -/
def constantDelay (delay : Int) : Policy := fun _ => some delay

/-- Source `exponentialBackoff(base)` from `policies.h`:
`base * static_cast<int>(std::pow(2, status.iteration_number))`, with the
int/double arithmetic idealised to exact integers. -/
def exponentialBackoff (base : Int) : Policy := fun status =>
  some (base * 2 ^ status.iteration_number)

/-- Source `decorrelatedJitterBackoff(base)` from `policies.h`, with the random
draw `uniform_int_distribution(0, prev.count() * 3)(generator)` modelled by
the oracle `rand lo hi`. (As in the source, `base` is captured but unused.) -/
def decorrelatedJitterBackoff (rand : Int → Int → Int) (base : Int) : Policy :=
  fun status =>
    match status.previous_delay with
    | some prev => some (rand 0 (prev * 3))
    | none => none

/-- Source `capDelay(maxDelay, policy)` from `policies.h`. -/
def capDelay (maxDelay : Int) (policy : Policy) : Policy := fun status =>
  match policy status with
  | some delay => some (min maxDelay delay)
  | none => none

/-- An instrumented wrapped policy: the `Nat` argument is the index of the
call, so distinct calls may observe distinct results (internal randomness). -/
abbrev PolicyI := Nat → RetryStatus → Option Int

/-- Instrumented `capDelay`: threads a call counter through each evaluation
of the wrapped policy, mirroring the source control flow. -/
def capDelayI (maxDelay : Int) (policy : PolicyI) (status : RetryStatus) (k : Nat) :
    Option Int × Nat :=
  match policy k status with
  | some delay => (some (min maxDelay delay), k + 1)
  | none => (none, k + 1)

/-- Instrumented `limitRetriesByDelay`. -/
def limitRetriesByDelayI (delayLimit : Int) (policy : PolicyI) (status : RetryStatus)
    (k : Nat) : Option Int × Nat :=
  match policy k status with
  | some delay => (if delay ≥ delayLimit then none else some delay, k + 1)
  | none => (none, k + 1)

/-- Instrumented `limitCumulativeDelay`. -/
def limitCumulativeDelayI (cumulativeDelayLimit : Int) (policy : PolicyI)
    (status : RetryStatus) (k : Nat) : Option Int × Nat :=
  match policy k status with
  | some delay =>
      (if delay + status.cumulative_delay ≥ cumulativeDelayLimit then none
       else some delay, k + 1)
  | none => (none, k + 1)

/-- Instrumented `limitTimePoint`, mirroring the source control flow: the
early return uses the first evaluation, every other path re-evaluates the
wrapped policy and returns that second result. -/
def limitTimePointI (time_point_limit now : Int) (policy : PolicyI)
    (status : RetryStatus) (k : Nat) : Option Int × Nat :=
  match policy k status with
  | some delay =>
      if delay + now > time_point_limit then (none, k + 1)
      else (policy (k + 1) status, k + 2)
  | none => (policy (k + 1) status, k + 2)

/-- Source `PreemptibleRetryStatus` from `preemptible.h`: a `RetryStatus` plus the
`condition_signalled` bit. -/
structure PreemptibleRetryStatus extends RetryStatus where
  condition_signalled : Bool
deriving DecidableEq, Repr

/-- Source `PreemptibleRetry::applyAndPreemptibleDelay`, with the mutex-guarded
condition check `cond()` and the outcome of `cv.wait_for(lock, d, cond)`
(`true` = the condition became true before the timeout) as boolean oracles.
The real wait of `applyAndDelay` and the condition-variable wait have no
effect on the computed status. -/
def applyAndPreemptibleDelay (policy_before policy_after : Policy)
    (cond waitPreempted : Bool) (status0 : PreemptibleRetryStatus) :
    Option PreemptibleRetryStatus :=
  if cond then
    let reset : RetryStatus :=
      if status0.condition_signalled then RetryStatus.fresh else status0.toRetryStatus
    match applyAndDelay policy_after reset with
    | some status => some ⟨status, false⟩
    | none => none
  else
    match apply policy_before status0.toRetryStatus with
    | none => none
    | some status =>
        if status.previous_delay.isSome && waitPreempted then some ⟨status, true⟩
        else some ⟨status, false⟩

/-- The real sleep never turns a continuing `apply` into STOP or vice versa. -/
theorem applyAndDelay_eq_none_iff (p : Policy) (status : RetryStatus) :
    applyAndDelay p status = none ↔ p status = none := by
  unfold applyAndDelay applyAndDelayTr apply
  cases hp : p status with
  | none => simp
  | some d => simp

/-- C2: if the policy yields delay `d` at a status, `apply` returns a status
with `iteration_number` incremented, `cumulative_delay` increased by `d` and
`previous_delay = d`; if the policy yields STOP, `apply` returns STOP. -/
theorem apply_step (p : Policy) (status : RetryStatus) :
    (∀ d, p status = some d →
      apply p status = some { iteration_number := status.iteration_number + 1,
                              cumulative_delay := status.cumulative_delay + d,
                              previous_delay := some d }) ∧
    (p status = none → apply p status = none) := by
  constructor
  · intro d hd
    simp [apply, hd]
  · intro h
    simp [apply, h]

/-- Witness for `apply_step` at `constantDelay 100` and the fresh status. -/
theorem apply_step_witness :
    apply (constantDelay 100) RetryStatus.fresh =
      some { iteration_number := 1, cumulative_delay := 100, previous_delay := some 100 } :=
  (apply_step (constantDelay 100) RetryStatus.fresh).1 100 rfl

/-- C3: the combined policy `x + y` returns STOP iff `x` or `y` does at the
same status, and otherwise the larger of the two delays. -/
theorem combine_spec (x y : Policy) (status : RetryStatus) :
    (∀ a b, x status = some a → y status = some b →
      combine x y status = some (max a b)) ∧
    ((x status = none ∨ y status = none) → combine x y status = none) := by
  constructor
  · intro a b ha hb
    simp [combine, ha, hb]
  · rintro (h | h)
    · simp [combine, h]
    · cases hx : x status <;> simp [combine, hx, h]

/-- Witness for `combine_spec`: a constant policy against `limitRetries 0`. -/
theorem combine_spec_witness :
    combine (constantDelay 3) (constantDelay 5) RetryStatus.fresh = some (max 3 5) ∧
    combine (constantDelay 3) (limitRetries 0) RetryStatus.fresh = none :=
  ⟨(combine_spec (constantDelay 3) (constantDelay 5) RetryStatus.fresh).1 3 5 rfl rfl,
   (combine_spec (constantDelay 3) (limitRetries 0) RetryStatus.fresh).2
     (Or.inr (by simp [limitRetries, RetryStatus.fresh]))⟩

/-- C10: `applyAndDelay` returns exactly the value of `apply`; the real sleep
is pure side effect and does not alter the computed status. -/
theorem applyAndDelay_refines_apply (p : Policy) (status : RetryStatus) :
    applyAndDelay p status = apply p status := by
  unfold applyAndDelay applyAndDelayTr
  cases apply p status with
  | none => rfl
  | some s =>
      obtain ⟨it, cum, prev⟩ := s
      cases prev <;> rfl

/-- C9: one round of the retry loop returns the action result as-is both when
`shouldRetry` rejects it and when the policy signals STOP (retries exhausted). -/
theorem retry_returns_last_result {T : Type} (pol : Policy)
    (shouldRetry : RetryStatus → T → Bool) (action : RetryStatus → T)
    (fuel : Nat) (status : RetryStatus) :
    (shouldRetry status (action status) = false →
      retryFuel pol shouldRetry action (fuel + 1) status = some (action status)) ∧
    (shouldRetry status (action status) = true → pol status = none →
      retryFuel pol shouldRetry action (fuel + 1) status = some (action status)) := by
  constructor
  · intro h
    simp [retryFuel, h]
  · intro h hstop
    have hnone : applyAndDelay pol status = none :=
      (applyAndDelay_eq_none_iff pol status).mpr hstop
    simp [retryFuel, h, hnone]

/-- Witness for `retry_returns_last_result`: `neverRetry` with an
always-retry predicate returns the first action result. -/
theorem retry_returns_last_result_witness :
    retryFuel neverRetry (fun _ _ => true) (fun s => s.iteration_number)
      (0 + 1) RetryStatus.fresh = some 0 :=
  (retry_returns_last_result neverRetry (fun _ _ => true)
    (fun s => s.iteration_number) 0 RetryStatus.fresh).2 rfl rfl

/-- C6: `limitCumulativeDelay` stops iff the wrapped policy stops or its
delay plus the accumulated delay reaches the limit, and otherwise passes the
wrapped delay through; concretely,
`limitCumulativeDelay 250 (constantDelay 100)` simulates to exactly the two
statuses with cumulative delay 100 and 200. -/
theorem limitCumulativeDelay_spec (lim : Int) (p : Policy) (status : RetryStatus) :
    (limitCumulativeDelay lim p status = none ↔
      (p status = none ∨ ∃ d, p status = some d ∧ lim ≤ d + status.cumulative_delay)) ∧
    (∀ d, p status = some d → d + status.cumulative_delay < lim →
      limitCumulativeDelay lim p status = some d) ∧
    simulate (limitCumulativeDelay 250 (constantDelay 100)) 10 =
      [{ iteration_number := 1, cumulative_delay := 100, previous_delay := some 100 },
       { iteration_number := 2, cumulative_delay := 200, previous_delay := some 100 }] := by
  refine ⟨?_, ?_, by decide⟩
  · cases hp : p status with
    | none => simp [limitCumulativeDelay, hp]
    | some d =>
        simp only [limitCumulativeDelay, hp]
        constructor
        · intro h
          by_cases hge : d + status.cumulative_delay ≥ lim
          · exact Or.inr ⟨d, rfl, hge⟩
          · simp [hge] at h
        · rintro (h | ⟨e, he, hge⟩)
          · exact absurd h (by simp)
          · obtain rfl : d = e := by injection he
            simp [hge]
  · intro d hd hlt
    simp [limitCumulativeDelay, hd, not_le.mpr hlt]

/-- Witness for `limitCumulativeDelay_spec` at the status after two
100-microsecond delays: the prospective cumulative 300 ≥ 250 triggers STOP. -/
theorem limitCumulativeDelay_spec_witness :
    limitCumulativeDelay 250 (constantDelay 100)
      { iteration_number := 2, cumulative_delay := 200, previous_delay := some 100 } = none :=
  (limitCumulativeDelay_spec 250 (constantDelay 100)
      { iteration_number := 2, cumulative_delay := 200, previous_delay := some 100 }).1.mpr
    (Or.inr ⟨100, rfl, by norm_num⟩)

/-- C8: `decorrelatedJitterBackoff` stops on a status with no previous delay,
and on a status with previous delay `p ≥ 0` returns a delay in `[0, 3p]`
whenever the random oracle stays within the bounds handed to it. -/
theorem decorrelatedJitterBackoff_spec (rand : Int → Int → Int) (base : Int)
    (status : RetryStatus)
    (hrand : ∀ lo hi, lo ≤ hi → lo ≤ rand lo hi ∧ rand lo hi ≤ hi) :
    (status.previous_delay = none → decorrelatedJitterBackoff rand base status = none) ∧
    (∀ p, status.previous_delay = some p → 0 ≤ p →
      ∃ d, decorrelatedJitterBackoff rand base status = some d ∧ 0 ≤ d ∧ d ≤ 3 * p) := by
  constructor
  · intro h
    simp [decorrelatedJitterBackoff, h]
  · intro p hp hp0
    have hle : (0 : Int) ≤ p * 3 := by linarith
    obtain ⟨h1, h2⟩ := hrand 0 (p * 3) hle
    exact ⟨rand 0 (p * 3), by simp [decorrelatedJitterBackoff, hp], h1, by linarith⟩

/-- Witness for `decorrelatedJitterBackoff_spec` with the oracle that always
returns the lower bound, at a status with previous delay 10. -/
theorem decorrelatedJitterBackoff_spec_witness :
    ∃ d, decorrelatedJitterBackoff (fun lo _ => lo) 1
        { iteration_number := 1, cumulative_delay := 10, previous_delay := some 10 } = some d ∧
      0 ≤ d ∧ d ≤ 3 * 10 :=
  (decorrelatedJitterBackoff_spec (fun lo _ => lo) 1
      { iteration_number := 1, cumulative_delay := 10, previous_delay := some 10 }
      (fun lo hi h => ⟨le_refl lo, h⟩)).2 10 rfl (by norm_num)

/-- C7: when the condition holds and the incoming status was produced by a
preempted wait (`condition_signalled = true`), the coordinator resets to the
fresh status — iteration 0, cumulative delay 0, no previous delay — before
applying the `after` policy, independently of how far the `before` phase got. -/
theorem preemptible_reset (policy_before policy_after : Policy) (waitPreempted : Bool)
    (status0 : PreemptibleRetryStatus) (hsig : status0.condition_signalled = true) :
    applyAndPreemptibleDelay policy_before policy_after true waitPreempted status0 =
      (applyAndDelay policy_after RetryStatus.fresh).map (fun s => ⟨s, false⟩) ∧
    RetryStatus.fresh.iteration_number = 0 ∧
    RetryStatus.fresh.cumulative_delay = 0 ∧
    RetryStatus.fresh.previous_delay = none := by
  refine ⟨?_, rfl, rfl, rfl⟩
  simp only [applyAndPreemptibleDelay, hsig, if_true]
  cases applyAndDelay policy_after RetryStatus.fresh <;> simp

/-- Witness for `preemptible_reset`: the before phase had already consumed
three iterations, yet `after` is applied to the fresh status. -/
theorem preemptible_reset_witness :
    applyAndPreemptibleDelay (constantDelay 5) (constantDelay 7) true false
        ⟨{ iteration_number := 3, cumulative_delay := 100, previous_delay := some 5 }, true⟩ =
      (applyAndDelay (constantDelay 7) RetryStatus.fresh).map (fun s => ⟨s, false⟩) ∧
    RetryStatus.fresh.iteration_number = 0 ∧
    RetryStatus.fresh.cumulative_delay = 0 ∧
    RetryStatus.fresh.previous_delay = none :=
  preemptible_reset (constantDelay 5) (constantDelay 7) false
    ⟨{ iteration_number := 3, cumulative_delay := 100, previous_delay := some 5 }, true⟩ rfl

/-- Closed form for the statuses replayed from `exponentialBackoff`, from an
arbitrary start status. -/
theorem simulateFrom_exponentialBackoff_getElem (base : Int) :
    ∀ (f : Nat) (s : RetryStatus) (i : Nat) (st : RetryStatus),
      (simulateFrom (exponentialBackoff base) s f)[i]? = some st →
      st.previous_delay = some (base * 2 ^ (s.iteration_number + i)) ∧
      st.iteration_number = s.iteration_number + i + 1
  | 0, s, i, st => by
      intro h
      simp [simulateFrom] at h
  | f + 1, s, i, st => by
      have hstep : apply (exponentialBackoff base) s = some
          { iteration_number := s.iteration_number + 1,
            cumulative_delay := s.cumulative_delay + base * 2 ^ s.iteration_number,
            previous_delay := some (base * 2 ^ s.iteration_number) } := rfl
      cases i with
      | zero =>
          intro h
          simp [simulateFrom, hstep] at h
          simp [← h]
      | succ j =>
          intro h
          simp only [simulateFrom, hstep, List.getElem?_cons_succ] at h
          obtain ⟨h1, h2⟩ := simulateFrom_exponentialBackoff_getElem base f
            { iteration_number := s.iteration_number + 1,
              cumulative_delay := s.cumulative_delay + base * 2 ^ s.iteration_number,
              previous_delay := some (base * 2 ^ s.iteration_number) } j st h
          constructor
          · rw [h1,
              show s.iteration_number + 1 + j = s.iteration_number + (j + 1) from by omega]
          · simp at h2
            omega

/-- C4: the `i`-th status (0-indexed) replayed by
`exponentialBackoff(base).simulate(k)`, when it exists, carries
`previous_delay = base * 2 ^ i` and `iteration_number = i + 1`. -/
theorem exponentialBackoff_simulate_spec (base : Int) (k i : Nat) (st : RetryStatus)
    (hst : (simulate (exponentialBackoff base) k)[i]? = some st) :
    st.previous_delay = some (base * 2 ^ i) ∧ st.iteration_number = i + 1 := by
  have h := simulateFrom_exponentialBackoff_getElem base k RetryStatus.fresh i st hst
  simpa [RetryStatus.fresh] using h

/-- Witness for `exponentialBackoff_simulate_spec`: the third status of
`exponentialBackoff(3).simulate(4)`. -/
theorem exponentialBackoff_simulate_spec_witness :
    ({ iteration_number := 3, cumulative_delay := 21, previous_delay := some 12 } :
        RetryStatus).previous_delay = some (3 * 2 ^ 2) ∧
    ({ iteration_number := 3, cumulative_delay := 21, previous_delay := some 12 } :
        RetryStatus).iteration_number = 2 + 1 :=
  exponentialBackoff_simulate_spec 3 4 2
    { iteration_number := 3, cumulative_delay := 21, previous_delay := some 12 } (by decide)

/-- Length of the replay of `limitRetries`, from an arbitrary start status. -/
theorem simulateFrom_limitRetries_length (nl : Int) :
    ∀ (f : Nat) (s : RetryStatus),
      (simulateFrom (limitRetries nl) s f).length =
        min f (nl - s.iteration_number).toNat
  | 0, s => by
      simp [simulateFrom]
  | f + 1, s => by
      by_cases hlim : (s.iteration_number : Int) ≥ nl
      · have hstop : apply (limitRetries nl) s = none := by
          simp [apply, limitRetries, hlim]
        simp only [simulateFrom, hstop, List.length_nil]
        omega
      · have hstep : apply (limitRetries nl) s = some
            { iteration_number := s.iteration_number + 1,
              cumulative_delay := s.cumulative_delay + 0,
              previous_delay := some 0 } := by
          simp [apply, limitRetries, hlim]
        have ih := simulateFrom_limitRetries_length nl f
            { iteration_number := s.iteration_number + 1,
              cumulative_delay := s.cumulative_delay + 0,
              previous_delay := some 0 }
        simp only [simulateFrom, hstep, List.length_cons, ih]
        simp only [not_le] at hlim
        omega

/-- Elements of the replay of `limitRetries`, from an arbitrary start status. -/
theorem simulateFrom_limitRetries_getElem (nl : Int) :
    ∀ (f : Nat) (s : RetryStatus) (i : Nat) (st : RetryStatus),
      (simulateFrom (limitRetries nl) s f)[i]? = some st →
      st.iteration_number = s.iteration_number + i + 1 ∧ st.previous_delay = some 0
  | 0, s, i, st => by
      intro h
      simp [simulateFrom] at h
  | f + 1, s, i, st => by
      by_cases hlim : (s.iteration_number : Int) ≥ nl
      · have hstop : apply (limitRetries nl) s = none := by
          simp [apply, limitRetries, hlim]
        intro h
        simp [simulateFrom, hstop] at h
      · have hstep : apply (limitRetries nl) s = some
            { iteration_number := s.iteration_number + 1,
              cumulative_delay := s.cumulative_delay + 0,
              previous_delay := some 0 } := by
          simp [apply, limitRetries, hlim]
        cases i with
        | zero =>
            intro h
            simp [simulateFrom, hstep] at h
            simp [← h]
        | succ j =>
            intro h
            simp only [simulateFrom, hstep, List.getElem?_cons_succ] at h
            obtain ⟨h1, h2⟩ := simulateFrom_limitRetries_getElem nl f
              { iteration_number := s.iteration_number + 1,
                cumulative_delay := s.cumulative_delay + 0,
                previous_delay := some 0 } j st h
            refine ⟨?_, h2⟩
            simp at h1
            omega

/-- C5: `limitRetries(n).simulate(n + 5)` produces exactly `n` statuses, the
`i`-th (0-indexed) having `iteration_number = i + 1` and zero delay. -/
theorem limitRetries_simulate_spec (n : Nat) :
    (simulate (limitRetries (n : Int)) (n + 5)).length = n ∧
    ∀ (i : Nat) (st : RetryStatus),
      (simulate (limitRetries (n : Int)) (n + 5))[i]? = some st →
      st.iteration_number = i + 1 ∧ st.previous_delay = some 0 := by
  constructor
  · have h := simulateFrom_limitRetries_length (n : Int) (n + 5) RetryStatus.fresh
    rw [simulate, h]
    simp only [RetryStatus.fresh]
    omega
  · intro i st hst
    have h := simulateFrom_limitRetries_getElem (n : Int) (n + 5) RetryStatus.fresh i st hst
    simpa [RetryStatus.fresh] using h

/-- Witness for `limitRetries_simulate_spec` at `n = 2`, second status. -/
theorem limitRetries_simulate_spec_witness :
    (simulate (limitRetries ((2 : Nat) : Int)) (2 + 5)).length = 2 ∧
    (({ iteration_number := 2, cumulative_delay := 0, previous_delay := some 0 } :
        RetryStatus).iteration_number = 1 + 1 ∧
     ({ iteration_number := 2, cumulative_delay := 0, previous_delay := some 0 } :
        RetryStatus).previous_delay = some 0) :=
  ⟨(limitRetries_simulate_spec 2).1,
   (limitRetries_simulate_spec 2).2 1
     { iteration_number := 2, cumulative_delay := 0, previous_delay := some 0 } (by decide)⟩

/-- C1: `capDelay`, `limitRetriesByDelay` and `limitCumulativeDelay` evaluate
the wrapped policy exactly once per call, but `limitTimePoint` does not: on
the instrumented wrapped policy that returns its call index, a single call
with a permissive time limit makes two evaluations and returns the second
result of the second evaluation (`some 1`, not `some 0` from the first). -/
theorem limitTimePoint_double_evaluation :
    (∀ (m : Int) (p : PolicyI) (status : RetryStatus) (k : Nat),
      (capDelayI m p status k).2 = k + 1) ∧
    (∀ (m : Int) (p : PolicyI) (status : RetryStatus) (k : Nat),
      (limitRetriesByDelayI m p status k).2 = k + 1) ∧
    (∀ (m : Int) (p : PolicyI) (status : RetryStatus) (k : Nat),
      (limitCumulativeDelayI m p status k).2 = k + 1) ∧
    limitTimePointI 100 0 (fun k _ => some (k : Int)) RetryStatus.fresh 0 = (some 1, 2) := by
  refine ⟨?_, ?_, ?_, rfl⟩
  · intro m p status k
    cases hp : p k status <;> simp [capDelayI, hp]
  · intro m p status k
    cases hp : p k status <;> simp [limitRetriesByDelayI, hp]
  · intro m p status k
    cases hp : p k status <;> simp [limitCumulativeDelayI, hp]

end Retry
